import Mathlib

/-!
Verification of the agent-system workflow orchestration core
(`examples/agent_system`): shared state record, deterministic fallback
roles, fixed and dynamic routing, the self-repairing executor, and the
auxiliary priority message queue.  Python dicts with string keys are
embedded as association lists, Python ints as `Int`, and the fallible
skill invocation as an explicit `Except`-valued environment parameter.
-/

namespace AgentSystem

/-! ## String helpers: Python's substring test `needle in hay` -/

/-- Chars-level test that the second list starts with the first. -/
def charsStartWith : List Char → List Char → Bool
  | [], _ => true
  | _ :: _, [] => false
  | c :: cs, d :: ds => c = d && charsStartWith cs ds

/-- Chars-level substring occurrence test. -/
def strContainsAux (needle : List Char) : List Char → Bool
  | [] => charsStartWith needle []
  | c :: cs => charsStartWith needle (c :: cs) || strContainsAux needle cs

/-- Python's `needle in hay` on strings. -/
def strContains (hay needle : String) : Bool :=
  strContainsAux needle.data hay.data

/-! ## Python `dict[str, str]` as an association list (insertion order kept,
assignment updates in place, as CPython dicts do) -/

/-- Python `d[k] = v` on a string-keyed dict. -/
def dictSet (d : List (String × String)) (k v : String) : List (String × String) :=
  match d with
  | [] => [(k, v)]
  | (k0, v0) :: rest => if k0 = k then (k, v) :: rest else (k0, v0) :: dictSet rest k v

/-- Python `d.get(k, dflt)` on a string-keyed dict. -/
def dictGet (d : List (String × String)) (k dflt : String) : String :=
  match d with
  | [] => dflt
  | (k0, v0) :: rest => if k0 = k then v0 else dictGet rest k dflt

/-! ## Messaging protocol (`messaging.py`) -/

/-- `MessageType` enum from `messaging.py`. -/
inductive MessageType where
  | request
  | response
  | notice
  | handoff
  deriving Repr, DecidableEq

/-- The `.value` string of each `MessageType` member (the `notice`
constructor embeds the source's NOTIFICATION member). -/
def MessageType.value : MessageType → String
  | .request => "request"
  | .response => "response"
  | .notice => "notification"
  | .handoff => "handoff"

/-- Inverse of `MessageType.value`: the `MessageType(x)` enum constructor,
`none` for a ValueError. -/
def MessageType.ofValue (x : String) : Option MessageType :=
  if x = "request" then some .request
  else if x = "response" then some .response
  else if x = "notification" then some .notice
  else if x = "handoff" then some .handoff
  else none

/-- `MessagePriority` enum from `messaging.py`: LOW = 1, NORMAL = 2, HIGH = 3. -/
inductive MessagePriority where
  | low
  | normal
  | high
  deriving Repr, DecidableEq

/-- The `.value` integer of each `MessagePriority` member. -/
def MessagePriority.value : MessagePriority → Int
  | .low => 1
  | .normal => 2
  | .high => 3

/-- Inverse of `MessagePriority.value`: the `MessagePriority(x)` constructor,
`none` for a ValueError. -/
def MessagePriority.ofValue (x : Int) : Option MessagePriority :=
  if x = 1 then some .low
  else if x = 2 then some .normal
  else if x = 3 then some .high
  else none

/-- `AgentMessage` dataclass from `messaging.py`.  `content` is embedded as
text (the source allows text or a mapping) and `metadata` as a string-keyed
association list. -/
structure AgentMessage where
  sender : String
  receiver : String
  content : String
  message_type : MessageType
  priority : MessagePriority
  metadata : List (String × String)
  id : String
  deriving Repr, DecidableEq

/-- The dictionary shape produced by `AgentMessage.to_dict`. -/
structure MsgDict where
  id : String
  sender : String
  receiver : String
  content : String
  message_type : String
  priority : Int
  metadata : List (String × String)
  deriving Repr, DecidableEq

/-- `AgentMessage.to_dict` from `messaging.py`. -/
def AgentMessage.to_dict (m : AgentMessage) : MsgDict :=
  { id := m.id
    sender := m.sender
    receiver := m.receiver
    content := m.content
    message_type := m.message_type.value
    priority := m.priority.value
    metadata := m.metadata }

/-- `AgentMessage.from_dict` from `messaging.py`; `none` models the
ValueError raised by an enum lookup on an invalid value. -/
def AgentMessage.from_dict (d : MsgDict) : Option AgentMessage :=
  match MessageType.ofValue d.message_type, MessagePriority.ofValue d.priority with
  | some t, some p =>
      some { id := d.id, sender := d.sender, receiver := d.receiver,
             content := d.content, message_type := t, priority := p,
             metadata := d.metadata }
  | _, _ => none

/-- A `MessageQueue` is its internal `_messages` list. -/
abbrev MessageQueue := List AgentMessage

/-- `MessageQueue.enqueue`: append. -/
def enqueue (q : MessageQueue) (m : AgentMessage) : MessageQueue :=
  q ++ [m]

/-- Stable insertion used to model Python's stable `list.sort`
(`key = priority.value`, `reverse = True`): an element is placed before
exactly the strictly lower-priority elements, so equal priorities keep
their original order. -/
def insertByPriorityDesc (x : AgentMessage) : List AgentMessage → List AgentMessage
  | [] => [x]
  | y :: ys =>
      if y.priority.value ≤ x.priority.value then x :: y :: ys
      else y :: insertByPriorityDesc x ys

/-- Python's stable sort by priority, descending, from `MessageQueue.dequeue`
and `MessageQueue.peek`. -/
def sortByPriorityDesc : List AgentMessage → List AgentMessage
  | [] => []
  | x :: xs => insertByPriorityDesc x (sortByPriorityDesc xs)

/-- `MessageQueue.dequeue`: `None` on an empty queue, otherwise sort by
priority (descending, stable) and pop index 0; the remaining queue is the
tail of the sorted list. -/
def dequeue (q : MessageQueue) : Option (AgentMessage × MessageQueue) :=
  match sortByPriorityDesc q with
  | [] => none
  | m :: rest => some (m, rest)

/-- `MessageQueue.peek`: the head of a sorted copy, without removal. -/
def peek (q : MessageQueue) : Option AgentMessage :=
  match sortByPriorityDesc q with
  | [] => none
  | m :: _ => some m

/-- `MessageQueue.get_for_receiver`: filter without removing. -/
def get_for_receiver (q : MessageQueue) (receiver : String) : List AgentMessage :=
  q.filter (fun m => m.receiver == receiver)

/-- `MessageQueue.to_list` from `messaging.py`. -/
def to_list (q : MessageQueue) : List MsgDict :=
  q.map AgentMessage.to_dict

/-- `MessageQueue.from_list` from `messaging.py`: enqueue each decoded dict
in order; `none` models the ValueError a bad enum value would raise. -/
def from_list : List MsgDict → Option MessageQueue
  | [] => some []
  | d :: ds =>
      match AgentMessage.from_dict d, from_list ds with
      | some m, some ms => some (m :: ms)
      | _, _ => none

/-- The first message of maximal priority: the message the spec says
`dequeue` must return (highest priority, ties broken in favour of the
earliest-enqueued message).  Written from the spec's words, to be compared
with the sort-and-pop implementation. -/
def firstMaxMessage : List AgentMessage → Option AgentMessage
  | [] => none
  | x :: xs =>
      match firstMaxMessage xs with
      | none => some x
      | some m => some (if m.priority.value ≤ x.priority.value then x else m)

/-! ## Shared state record (`graph.py`: `AgentState`) -/

/-- A conversation entry (langchain message): a structured kind
(system / human / ai), free-text content, and the `role` tag carried in
`additional_kwargs` (empty when absent). -/
structure ChatMessage where
  kind : String
  content : String
  role : String
  deriving Repr, DecidableEq

/-- One entry of `execution_plan`: `{agent, task, status}`. -/
structure PlanStep where
  agent : String
  task : String
  status : String
  deriving Repr, DecidableEq

/-- `AgentState` TypedDict from `graph.py`.  `messages` is the append-only
conversation (the `add_messages` channel), `code_files` a string-keyed dict,
`iteration_count` a Python int. -/
structure AgentState where
  messages : List ChatMessage
  code_files : List (String × String)
  iteration_count : Int
  review_status : String
  reviewer_feedback : String
  pending_action : String
  approval_status : String
  last_execution : String
  skill_result : Int
  skill_repair_attempted : Bool
  test_code : String
  test_status : String
  execution_plan : List PlanStep
  orchestrator_status : String
  deriving Repr, DecidableEq

/-- A partial state update as returned by a node: `none` means the key is
absent from the returned dict; `messages` entries are appended by the
`add_messages` merge. -/
structure StateUpdate where
  messages : List ChatMessage := []
  code_files : Option (List (String × String)) := none
  iteration_count : Option Int := none
  review_status : Option String := none
  reviewer_feedback : Option String := none
  pending_action : Option String := none
  approval_status : Option String := none
  last_execution : Option String := none
  skill_result : Option Int := none
  skill_repair_attempted : Option Bool := none
  test_code : Option String := none
  test_status : Option String := none
  execution_plan : Option (List PlanStep) := none
  orchestrator_status : Option String := none
  deriving Repr, DecidableEq

/-- LangGraph's merge of a node's partial update into the state: `messages`
append (the `add_messages` reducer), every other present key replaces the
old value. -/
def applyUpdate (s : AgentState) (u : StateUpdate) : AgentState :=
  { messages := s.messages ++ u.messages
    code_files := u.code_files.getD s.code_files
    iteration_count := u.iteration_count.getD s.iteration_count
    review_status := u.review_status.getD s.review_status
    reviewer_feedback := u.reviewer_feedback.getD s.reviewer_feedback
    pending_action := u.pending_action.getD s.pending_action
    approval_status := u.approval_status.getD s.approval_status
    last_execution := u.last_execution.getD s.last_execution
    skill_result := u.skill_result.getD s.skill_result
    skill_repair_attempted := u.skill_repair_attempted.getD s.skill_repair_attempted
    test_code := u.test_code.getD s.test_code
    test_status := u.test_status.getD s.test_status
    execution_plan := u.execution_plan.getD s.execution_plan
    orchestrator_status := u.orchestrator_status.getD s.orchestrator_status }

/-! ## Deterministic fallback role nodes (`nodes.py`, `roles/`) -/

/-- The deliberately wrong first artifact written by the fallback coder. -/
def badAddSource : String :=
  "def add(a, b):\n    # TODO: fix math\n    return a - b\n"

/-- The corrected artifact written by the fallback coder on later
iterations. -/
def goodAddSource : String :=
  "def add(a, b):\n    return a + b\n"

/-- `_fallback_coder` from `nodes.py` (identical logic to
`CoderRole._fallback_process` folded through `as_node`). -/
def fallback_coder (s : AgentState) : StateUpdate :=
  let iteration := s.iteration_count
  if iteration = 0 then
    { code_files := some (dictSet s.code_files "app.py" badAddSource)
      iteration_count := some (iteration + 1)
      messages := [⟨"ai", "Coder: initial implementation.", "coder"⟩] }
  else
    { code_files := some (dictSet s.code_files "app.py" goodAddSource)
      iteration_count := some (iteration + 1)
      messages := [⟨"ai", "Coder: fixed math logic.", "coder"⟩] }

/-- `_fallback_reviewer` from `nodes.py` (identical logic to
`ReviewerRole._fallback_process`). -/
def fallback_reviewer (s : AgentState) : StateUpdate :=
  let code := dictGet s.code_files "app.py" ""
  if strContains code "return a + b" && !strContains code "TODO" then
    { review_status := some "approved"
      reviewer_feedback := some "Reviewer: approved."
      messages := [⟨"ai", "Reviewer: approved.", "reviewer"⟩] }
  else
    { review_status := some "changes"
      reviewer_feedback := some "Reviewer: add() is incorrect; please fix math."
      messages := [⟨"ai", "Reviewer: add() is incorrect; please fix math.", "reviewer"⟩] }

/-- The test file generated by the fallback tester when it recognizes a
testable shape. -/
def generatedTestCode : String :=
  "import pytest\n\ndef test_add_positive_numbers():\n    from app import add\n    assert add(2, 3) == 5\n\ndef test_add_negative_numbers():\n    from app import add\n    assert add(-1, -2) == -3\n\ndef test_add_zero():\n    from app import add\n    assert add(0, 5) == 5\n"

/-- `TesterRole._fallback_process` folded through `as_node`. -/
def fallback_tester (s : AgentState) : StateUpdate :=
  let code := dictGet s.code_files "app.py" ""
  if strContains code "def add" then
    { test_code := some generatedTestCode
      test_status := some "generated"
      messages := [⟨"ai",
        "Tester: generated tests.\n\n```python\n" ++ generatedTestCode ++ "\n```",
        "tester"⟩] }
  else
    { test_code := some "# No testable code found"
      test_status := some "skipped"
      messages := [⟨"ai",
        "Tester: skipped tests.\n\n```python\n# No testable code found\n```",
        "tester"⟩] }

/-- `approver_node` from `graph.py`: re-emits the approval status already
present in the state (`state.get` defaults to pending when the key is
absent; the record embedding keeps the field always present, as the
initializer does), and requests approval for the fixed pending action. -/
def approver_node (s : AgentState) : StateUpdate :=
  { approval_status := some s.approval_status
    pending_action := some "execute:app.py:add()"
    messages := [⟨"ai", "Approval requested for executing app.py.", "approver"⟩] }

/-! ## Self-repairing executor (`graph.py`: `executor_node`) -/

/-- Errors escaping `executor_node`: the RuntimeError guarding approval,
or a propagated skill exception carrying its text. -/
inductive ExecError where
  | runtimeError (msg : String)
  | skillError (msg : String)
  deriving Repr, DecidableEq

/-- Modelled from the spec: the known-good source template
`arithmetic_template("add")` written by the repair path
(`skills/templates.py` is not under `src/`; the spec calls it a
"known-good template" whose repaired `add` returns the sum). -/
def arithmetic_template_add : String := goodAddSource

/-- The outcome of one `executor_node` call: the produced update or the
escaping exception, the final on-disk source of the `arithmetic` skill,
and how many times the skill was invoked. -/
structure ExecOutcome where
  result : Except ExecError StateUpdate
  finalSource : String
  invocations : Nat

/-- `executor_node` from `graph.py`.  `invoke src` models importing the
`arithmetic` skill from source text `src` and calling `add(2, 3)`
(`Except.error` carries the raised exception's text); `src` is the current
on-disk source the registry loads.  On a first failure the editor
overwrites the source with the known-good template, the reloader reloads
it, and the invocation is retried exactly once. -/
def executor_node (invoke : String → Except String Int) (src : String)
    (s : AgentState) : ExecOutcome :=
  if s.approval_status ≠ "approved" then
    ⟨Except.error (ExecError.runtimeError "Execution denied or not approved."), src, 0⟩
  else
    match invoke src with
    | Except.ok result =>
        ⟨Except.ok
          { last_execution := some "Executed app.py:add()"
            skill_result := some result
            messages := [⟨"ai", "Executor: execution completed.", "executor"⟩] },
          src, 1⟩
    | Except.error exc =>
        if s.skill_repair_attempted then
          ⟨Except.error (ExecError.skillError exc), src, 1⟩
        else
          match invoke arithmetic_template_add with
          | Except.ok result =>
              ⟨Except.ok
                { last_execution := some ("Executed app.py:add() after repair: " ++ exc)
                  skill_result := some result
                  skill_repair_attempted := some true
                  messages := [⟨"ai", "Executor: repaired skill and executed.", "executor"⟩] },
                arithmetic_template_add, 2⟩
          | Except.error exc2 =>
              ⟨Except.error (ExecError.skillError exc2), arithmetic_template_add, 2⟩

/-- `build_initial_state` from `graph.py`. -/
def build_initial_state : AgentState :=
  { messages :=
      [⟨"system", "You are a multi-role coding agent. Follow reviewer feedback.", ""⟩,
       ⟨"human", "Implement add(a, b) in app.py.", ""⟩]
    code_files := []
    iteration_count := 0
    review_status := "changes"
    reviewer_feedback := ""
    pending_action := ""
    approval_status := "pending"
    last_execution := ""
    skill_result := 0
    skill_repair_attempted := false
    test_code := ""
    test_status := "pending"
    execution_plan := []
    orchestrator_status := "planning" }

/-! ## Fixed pipeline (`graph.py`: `build_graph` wiring) -/

/-- The nodes of the fixed pipeline. -/
inductive GraphNode where
  | coder
  | reviewer
  | tester
  | approver
  | executor
  deriving Repr, DecidableEq

/-- `_route_after_review` from `graph.py`: changes to coder, otherwise
tester. -/
def route_after_review (s : AgentState) : GraphNode :=
  if s.review_status = "changes" then .coder else .tester

/-- `_route_after_tester` from `graph.py`: failed to coder, otherwise
approver. -/
def route_after_tester (s : AgentState) : GraphNode :=
  if s.test_status = "failed" then .coder else .approver

/-- Execute the compiled fixed pipeline from a given node, fuelled.
`none` is exhausted fuel; `some (Except.error e)` is an exception escaping
a node (the run aborts with no further update); `some (Except.ok final)`
is a normal arrival at the graph end.  Conditional edges inspect the state
after the node's update has been merged, as LangGraph does. -/
def runFrom (invoke : String → Except String Int) (src : String) :
    Nat → GraphNode → AgentState → Option (Except ExecError AgentState)
  | 0, _, _ => none
  | fuel + 1, n, s =>
    match n with
    | .coder => runFrom invoke src fuel .reviewer (applyUpdate s (fallback_coder s))
    | .reviewer =>
        let s' := applyUpdate s (fallback_reviewer s)
        runFrom invoke src fuel (route_after_review s') s'
    | .tester =>
        let s' := applyUpdate s (fallback_tester s)
        runFrom invoke src fuel (route_after_tester s') s'
    | .approver => runFrom invoke src fuel .executor (applyUpdate s (approver_node s))
    | .executor =>
        match (executor_node invoke src s).result with
        | Except.ok u => some (Except.ok (applyUpdate s u))
        | Except.error e => some (Except.error e)

/-- Resuming a checkpointed run (`build_checkpointed_graph` plus
`graph.update_state` / `graph.stream(None, config)`): merge the external
update into the suspended snapshot, then continue from the interrupted
node. -/
def resume_run (invoke : String → Except String Int) (src : String)
    (node : GraphNode) (suspended : AgentState) (external : StateUpdate) :
    Option (Except ExecError AgentState) :=
  runFrom invoke src 10 node (applyUpdate suspended external)

/-! ## Dynamic routing (`dynamic_graph.py`: `OrchestratorRouter.get_next`) -/

/-- The known agent names accepted by the router. -/
def knownAgents : List String := ["coder", "reviewer", "tester", "approver", "executor"]

/-- `OrchestratorRouter.get_next` from `dynamic_graph.py`, translated
clause by clause (the final clause returns END only when every step's
status is literally `completed` and the plan is non-empty). -/
def get_next (s : AgentState) : String :=
  if s.orchestrator_status = "completed" then "__end__"
  else if s.execution_plan.any (fun st => st.status == "failed") then "orchestrator"
  else
    match s.execution_plan.find? (fun st => st.status == "pending") with
    | some st => if knownAgents.contains st.agent then st.agent else "orchestrator"
    | none =>
        if s.execution_plan.all (fun st => st.status == "completed")
            && !s.execution_plan.isEmpty then "__end__"
        else "orchestrator"

/-- The router as the spec words it: clause (4) returns END whenever no
step is pending, none is failed, and the plan is non-empty.  Written from
the spec, to be compared with `get_next`. -/
def get_next_spec (s : AgentState) : String :=
  if s.orchestrator_status = "completed" then "__end__"
  else if s.execution_plan.any (fun st => st.status == "failed") then "orchestrator"
  else
    match s.execution_plan.find? (fun st => st.status == "pending") with
    | some st => if knownAgents.contains st.agent then st.agent else "orchestrator"
    | none => if s.execution_plan.isEmpty then "orchestrator" else "__end__"

/-! ## Orchestrator fallback (`roles/orchestrator.py`) -/

/-- `_extract_task_from_messages`: content of the first human message. -/
def extract_task_from_messages (s : AgentState) : String :=
  match s.messages.find? (fun m => m.kind == "human") with
  | some m => m.content
  | none => "No task specified"

/-- The for-break loop of `OrchestratorRole._fallback_process`: mark the
first pending step assigned to the given agent as completed. -/
def markFirstPendingStep : List PlanStep → String → List PlanStep
  | [], _ => []
  | st :: rest, agent =>
      if st.agent == agent && st.status == "pending" then
        { st with status := "completed" } :: rest
      else st :: markFirstPendingStep rest agent

/-- The same marking written from the spec's words ("marks the first
pending step for the role as completed"): split the plan at the first
pending step assigned to the agent, complete that one step, and keep every
other step unchanged in place. -/
def completeFirstPending_spec (plan : List PlanStep) (agent : String) : List PlanStep :=
  match plan.dropWhile (fun st => !(st.agent == agent && st.status == "pending")) with
  | [] => plan
  | st :: tail =>
      plan.takeWhile (fun st => !(st.agent == agent && st.status == "pending"))
        ++ ({ st with status := "completed" } :: tail)

/-- The default plan synthesized on an empty `execution_plan`. -/
def defaultPlanFor (s : AgentState) : List PlanStep :=
  [⟨"coder", "Implement: " ++ extract_task_from_messages s, "pending"⟩,
   ⟨"reviewer", "Review the implementation", "pending"⟩,
   ⟨"tester", "Write and run tests", "pending"⟩]

/-- `OrchestratorRole._fallback_process` folded through `as_node`: on an
empty plan synthesize the default plan with status planning; on a
non-empty plan mark the first pending coder step completed when
`iteration_count > 0` and the first pending reviewer step completed when
the review was approved, then derive the overall status from the count of
steps still pending (zero pending completed, otherwise executing). -/
def orchestrator_fallback_process (s : AgentState) : StateUpdate :=
  if s.execution_plan.isEmpty then
    { execution_plan := some (defaultPlanFor s)
      orchestrator_status := some "planning"
      messages := [⟨"ai", "Orchestrator: created execution plan.", "orchestrator"⟩] }
  else
    let plan1 :=
      if s.iteration_count > 0 then markFirstPendingStep s.execution_plan "coder"
      else s.execution_plan
    let plan2 :=
      if s.review_status = "approved" then markFirstPendingStep plan1 "reviewer"
      else plan1
    let pendingCount := (plan2.filter (fun st => st.status == "pending")).length
    let status := if pendingCount = 0 then "completed" else "executing"
    { execution_plan := some plan2
      orchestrator_status := some status
      messages := [⟨"ai",
        "Orchestrator: updated plan. " ++ toString (plan2.length - pendingCount)
          ++ "/" ++ toString plan2.length ++ " steps completed.",
        "orchestrator"⟩] }

/-! ## Concrete inputs used by witnesses and counterexamples -/

/-- The initializer state with the approval decision pre-set to approved,
as the interrupt-flow scenario injects it. -/
def initApprovedState : AgentState :=
  { build_initial_state with approval_status := "approved" }

/-- A skill environment in which any source containing the corrected
expression imports cleanly and `add(2, 3)` returns 5, while any other
source raises. -/
def addSkillEnv : String → Except String Int :=
  fun src =>
    if strContains src "return a + b" then Except.ok 5
    else Except.error "TypeError: bad arithmetic source"

/-- A skill environment whose current on-disk source always raises but
whose repaired template works: exercises the repair path. -/
def brokenThenFixedEnv : String → Except String Int :=
  fun src =>
    if src = arithmetic_template_add then Except.ok 5
    else Except.error "NameError: name subtract is not defined"

/-- Scenario-A router state: two pending steps, phase executing. -/
def scenarioAState : AgentState :=
  { build_initial_state with
      execution_plan :=
        [⟨"coder", "Implement", "pending"⟩, ⟨"reviewer", "Review", "pending"⟩]
      orchestrator_status := "executing" }

/-- A non-empty, fully pending plan in a state with no observable
progress: the orchestrator fallback leaves every step pending. -/
def allPendingPlanState : AgentState :=
  { build_initial_state with
      execution_plan :=
        [⟨"coder", "Implement", "pending"⟩,
         ⟨"reviewer", "Review the implementation", "pending"⟩,
         ⟨"tester", "Write and run tests", "pending"⟩]
      orchestrator_status := "executing" }

/-- A low-priority message enqueued first in the boundary scenario. -/
def lowMsg : AgentMessage :=
  { sender := "coder", receiver := "reviewer", content := "minor note"
    message_type := MessageType.request, priority := MessagePriority.low
    metadata := [], id := "m1" }

/-- A high-priority message enqueued second in the boundary scenario. -/
def highMsg : AgentMessage :=
  { sender := "tester", receiver := "reviewer", content := "urgent failure"
    message_type := MessageType.handoff, priority := MessagePriority.high
    metadata := [], id := "m2" }

/-- A normal-priority message used by the round-trip witness. -/
def normalMsg : AgentMessage :=
  { sender := "orchestrator", receiver := "coder", content := "plan step"
    message_type := MessageType.response, priority := MessagePriority.normal
    metadata := [("thread", "t1")], id := "m3" }

/-! ## Helper lemmas -/

theorem applyUpdate_messages (s : AgentState) (u : StateUpdate) :
    (applyUpdate s u).messages = s.messages ++ u.messages := rfl

theorem applyUpdate_code_files (s : AgentState) (u : StateUpdate) :
    (applyUpdate s u).code_files = u.code_files.getD s.code_files := rfl

theorem applyUpdate_iteration_count (s : AgentState) (u : StateUpdate) :
    (applyUpdate s u).iteration_count = u.iteration_count.getD s.iteration_count := rfl

theorem applyUpdate_review_status (s : AgentState) (u : StateUpdate) :
    (applyUpdate s u).review_status = u.review_status.getD s.review_status := rfl

theorem applyUpdate_approval_status (s : AgentState) (u : StateUpdate) :
    (applyUpdate s u).approval_status = u.approval_status.getD s.approval_status := rfl

theorem applyUpdate_test_status (s : AgentState) (u : StateUpdate) :
    (applyUpdate s u).test_status = u.test_status.getD s.test_status := rfl

theorem dictGet_dictSet_same (d : List (String × String)) (k v dflt : String) :
    dictGet (dictSet d k v) k dflt = v := by
  induction d with
  | nil => simp [dictSet, dictGet]
  | cons p rest ih =>
      obtain ⟨k0, v0⟩ := p
      by_cases h : k0 = k
      · simp [dictSet, dictGet, h]
      · simp [dictSet, dictGet, h, ih]

theorem good_contains_sum : strContains goodAddSource "return a + b" = true := by decide

theorem good_no_marker : strContains goodAddSource "TODO" = false := by decide

theorem good_has_defadd : strContains goodAddSource "def add" = true := by decide

theorem bad_has_marker : strContains badAddSource "TODO" = true := by decide

theorem bad_has_wrong_expr : strContains badAddSource "return a - b" = true := by decide

theorem bad_has_defadd : strContains badAddSource "def add" = true := by decide

theorem bad_no_sum : strContains badAddSource "return a + b" = false := by decide

/-! ## Claim theorems -/

/-- Claim C10: the approval-gate node never alters the approval decision:
it re-emits the approval status already in the state, sets the fixed
pending action, appends exactly one conversation message, and leaves every
other state field untouched (its update carries no other key). -/
theorem approver_gate_frame (s : AgentState) :
    (approver_node s).approval_status = some s.approval_status ∧
    (approver_node s).pending_action = some "execute:app.py:add()" ∧
    (approver_node s).messages.length = 1 ∧
    (approver_node s).code_files = none ∧
    (approver_node s).iteration_count = none ∧
    (approver_node s).review_status = none ∧
    (approver_node s).reviewer_feedback = none ∧
    (approver_node s).last_execution = none ∧
    (approver_node s).skill_result = none ∧
    (approver_node s).skill_repair_attempted = none ∧
    (approver_node s).test_code = none ∧
    (approver_node s).test_status = none ∧
    (approver_node s).execution_plan = none ∧
    (approver_node s).orchestrator_status = none :=
  ⟨rfl, rfl, rfl, rfl, rfl, rfl, rfl, rfl, rfl, rfl, rfl, rfl, rfl, rfl⟩

/-- Claim C4: whenever the approval outcome is anything but approved, the
executor fails with the RuntimeError-class failure, performs no skill
invocation, and produces no state update at all. -/
theorem executor_denied_no_mutation (invoke : String → Except String Int)
    (src : String) (s : AgentState) (h : s.approval_status ≠ "approved") :
    executor_node invoke src s =
      ⟨Except.error (ExecError.runtimeError "Execution denied or not approved."),
       src, 0⟩ := by
  simp [executor_node, h]

/-- Witness for C4 at the initializer state, whose approval status is
pending. -/
theorem executor_denied_no_mutation_witness :
    build_initial_state.approval_status ≠ "approved" ∧
    executor_node addSkillEnv goodAddSource build_initial_state =
      ⟨Except.error (ExecError.runtimeError "Execution denied or not approved."),
       goodAddSource, 0⟩ :=
  ⟨by decide,
   executor_denied_no_mutation addSkillEnv goodAddSource build_initial_state (by decide)⟩

/-- Claim C6: the fallback coder always sets `iteration_count` to exactly
the input value plus one (strictly above the input, so the count never
decreases), and writes the artifact `app.py`: the deliberately incorrect
version (marker token and wrong expression) on iteration 0, the corrected
version on any later iteration. -/
theorem coder_increments_and_artifact (s : AgentState) :
    (fallback_coder s).iteration_count = some (s.iteration_count + 1) ∧
    s.iteration_count < s.iteration_count + 1 ∧
    (s.iteration_count = 0 →
        dictGet (((fallback_coder s).code_files).getD []) "app.py" "" = badAddSource ∧
        strContains badAddSource "TODO" = true ∧
        strContains badAddSource "return a - b" = true) ∧
    (0 < s.iteration_count →
        dictGet (((fallback_coder s).code_files).getD []) "app.py" "" = goodAddSource ∧
        strContains goodAddSource "return a + b" = true ∧
        strContains goodAddSource "TODO" = false) := by
  refine ⟨?_, lt_add_one _, ?_, ?_⟩
  · by_cases h : s.iteration_count = 0 <;> simp [fallback_coder, h]
  · intro h
    simp [fallback_coder, h, dictGet_dictSet_same, bad_has_marker, bad_has_wrong_expr]
  · intro h
    have h' : s.iteration_count ≠ 0 := by omega
    simp [fallback_coder, h', dictGet_dictSet_same, good_contains_sum, good_no_marker]

/-- Witness for C6 at the initializer state (iteration 0). -/
theorem coder_increments_and_artifact_witness :
    build_initial_state.iteration_count = 0 ∧
    dictGet (((fallback_coder build_initial_state).code_files).getD [])
      "app.py" "" = badAddSource :=
  ⟨rfl, ((coder_increments_and_artifact build_initial_state).2.2.1 rfl).1⟩

/-- Claim C9: resuming from the same suspended checkpoint with the same
external update (and the same skill environment) is deterministic — every
remaining node update is a function of the state alone, so two resumed
executions produce equal final records. -/
theorem resume_run_deterministic (invoke : String → Except String Int)
    (src : String) (node : GraphNode) (s1 s2 : AgentState)
    (u1 u2 : StateUpdate) (hs : s1 = s2) (hu : u1 = u2) :
    resume_run invoke src node s1 u1 = resume_run invoke src node s2 u2 := by
  rw [hs, hu]

/-- Witness for C9: resuming twice at the executor with the injected
approval decision yields the same result. -/
theorem resume_run_deterministic_witness :
    resume_run addSkillEnv goodAddSource GraphNode.executor
        build_initial_state { approval_status := some "approved" } =
      resume_run addSkillEnv goodAddSource GraphNode.executor
        build_initial_state { approval_status := some "approved" } :=
  resume_run_deterministic addSkillEnv goodAddSource GraphNode.executor
    build_initial_state build_initial_state
    { approval_status := some "approved" } { approval_status := some "approved" }
    rfl rfl

theorem charsStartWith_refl (l : List Char) : charsStartWith l l = true := by
  induction l with
  | nil => rfl
  | cons c cs ih => simp [charsStartWith, ih]

theorem strContainsAux_append (n p : List Char) : strContainsAux n (p ++ n) = true := by
  induction p with
  | nil =>
      cases n with
      | nil => rfl
      | cons c cs => simp [strContainsAux, charsStartWith_refl]
  | cons c cs ih => simp [strContainsAux, ih]

/-- A string contains any suffix appended to it: the repair summary
contains the original exception text. -/
theorem strContains_append_right (p q : String) : strContains (p ++ q) q = true := by
  have hd : (p ++ q).data = p.data ++ q.data := String.data_append p q
  simp [strContains, hd, strContainsAux_append]

/-- Claim C3: when the skill invocation raises, the executor repairs at
most exactly once per run.  If `skill_repair_attempted` is already set the
exception is re-raised after the single failed invocation; otherwise the
skill source is overwritten with the known-good template (and reloaded
from it), the invocation is retried exactly once (two invocations total),
the update sets `skill_repair_attempted` to true, and the reported
execution summary carries the original exception's text alongside the
repaired result. -/
theorem executor_repairs_at_most_once (invoke : String → Except String Int)
    (src : String) (s : AgentState) (exc : String)
    (happ : s.approval_status = "approved")
    (hfail : invoke src = Except.error exc) :
    (s.skill_repair_attempted = true →
        executor_node invoke src s =
          ⟨Except.error (ExecError.skillError exc), src, 1⟩) ∧
    (s.skill_repair_attempted = false →
        (executor_node invoke src s).finalSource = arithmetic_template_add ∧
        (executor_node invoke src s).invocations = 2 ∧
        (∀ v, invoke arithmetic_template_add = Except.ok v →
            (executor_node invoke src s).result = Except.ok
              { last_execution :=
                  some ("Executed app.py:add() after repair: " ++ exc)
                skill_result := some v
                skill_repair_attempted := some true
                messages :=
                  [⟨"ai", "Executor: repaired skill and executed.", "executor"⟩] } ∧
            strContains ("Executed app.py:add() after repair: " ++ exc) exc = true)) := by
  constructor
  · intro h
    simp [executor_node, happ, hfail, h]
  · intro h
    refine ⟨?_, ?_, ?_⟩
    · cases hrt : invoke arithmetic_template_add <;>
        simp [executor_node, happ, hfail, h, hrt]
    · cases hrt : invoke arithmetic_template_add <;>
        simp [executor_node, happ, hfail, h, hrt]
    · intro v hrt
      refine ⟨?_, strContains_append_right _ _⟩
      simp [executor_node, happ, hfail, h, hrt]

/-- Witness for C3: a state with approval granted and no prior repair, a
broken on-disk source, and a template that imports cleanly: the executor
invokes twice, swaps in the template, and reports the repaired result. -/
theorem executor_repairs_at_most_once_witness :
    (executor_node brokenThenFixedEnv badAddSource initApprovedState).invocations = 2 ∧
    (executor_node brokenThenFixedEnv badAddSource initApprovedState).finalSource =
      arithmetic_template_add ∧
    (executor_node brokenThenFixedEnv badAddSource initApprovedState).result =
      Except.ok
        { last_execution :=
            some ("Executed app.py:add() after repair: "
              ++ "NameError: name subtract is not defined")
          skill_result := some 5
          skill_repair_attempted := some true
          messages :=
            [⟨"ai", "Executor: repaired skill and executed.", "executor"⟩] } := by
  have h := executor_repairs_at_most_once brokenThenFixedEnv badAddSource
    initApprovedState "NameError: name subtract is not defined" rfl rfl
  have h2 := h.2 rfl
  exact ⟨h2.2.1, h2.1, (h2.2.2 5 rfl).1⟩

/-- Claim C2: on any state whose plan steps carry the data model's
statuses, the dynamic router decides by the spec's exact priority order
(completed phase, then any failed step, then the first pending step's
role, then END on a non-empty settled plan, else orchestrator). -/
theorem router_priority_order (s : AgentState)
    (hwf : ∀ st ∈ s.execution_plan,
        st.status = "pending" ∨ st.status = "completed" ∨ st.status = "failed") :
    get_next s = get_next_spec s := by
  unfold get_next get_next_spec
  by_cases h1 : s.orchestrator_status = "completed"
  · rw [if_pos h1, if_pos h1]
  · rw [if_neg h1, if_neg h1]
    by_cases h2 : s.execution_plan.any (fun st => st.status == "failed") = true
    · rw [if_pos h2, if_pos h2]
    · rw [if_neg h2, if_neg h2]
      cases hfind : s.execution_plan.find? (fun st => st.status == "pending") with
      | some st => simp only [hfind]
      | none =>
          simp only [hfind]
          have hall : s.execution_plan.all (fun st => st.status == "completed") = true := by
            rw [List.all_eq_true]
            intro st hst
            have hnp := List.find?_eq_none.mp hfind st hst
            have hnf : ¬(st.status == "failed") = true := by
              intro hc
              exact h2 (List.any_eq_true.mpr ⟨st, hst, hc⟩)
            rcases hwf st hst with h | h | h
            · exact absurd (by simp [h]) hnp
            · simp [h]
            · exact absurd (by simp [h]) hnf
          cases he : s.execution_plan.isEmpty <;> simp [hall, he]

/-- Witness for C2 at the spec's Scenario A state: two pending steps,
phase executing; both router readings route to the coder. -/
theorem router_priority_order_witness :
    (∀ st ∈ scenarioAState.execution_plan,
        st.status = "pending" ∨ st.status = "completed" ∨ st.status = "failed") ∧
    get_next scenarioAState = get_next_spec scenarioAState ∧
    get_next scenarioAState = "coder" :=
  ⟨by decide, router_priority_order scenarioAState (by decide), by decide⟩

theorem completeFirstPending_spec_cons_hit (agent : String) (st : PlanStep)
    (rest : List PlanStep) (h : (st.agent == agent && st.status == "pending") = true) :
    completeFirstPending_spec (st :: rest) agent = { st with status := "completed" } :: rest := by
  have hneg : ¬(!(st.agent == agent && st.status == "pending")) = true := by
    rw [h]; decide
  unfold completeFirstPending_spec
  simp only [List.dropWhile_cons, List.takeWhile_cons]
  simp only [if_neg hneg]
  rfl

theorem completeFirstPending_spec_cons_miss (agent : String) (st : PlanStep)
    (rest : List PlanStep) (h : (st.agent == agent && st.status == "pending") = false) :
    completeFirstPending_spec (st :: rest) agent =
      st :: completeFirstPending_spec rest agent := by
  have hp : (!(st.agent == agent && st.status == "pending")) = true := by
    rw [h]; decide
  unfold completeFirstPending_spec
  simp only [List.dropWhile_cons, List.takeWhile_cons]
  simp only [if_pos hp]
  cases hd : rest.dropWhile (fun st => !(st.agent == agent && st.status == "pending")) with
  | nil => rfl
  | cons st2 tail => simp only [List.cons_append]

theorem markFirstPendingStep_eq_spec (plan : List PlanStep) (agent : String) :
    markFirstPendingStep plan agent = completeFirstPending_spec plan agent := by
  induction plan with
  | nil => rfl
  | cons st rest ih =>
      by_cases h : (st.agent == agent && st.status == "pending") = true
      · rw [completeFirstPending_spec_cons_hit agent st rest h]
        simp only [markFirstPendingStep, if_pos h]
      · have h' : (st.agent == agent && st.status == "pending") = false :=
          Bool.eq_false_iff.mpr h
        rw [completeFirstPending_spec_cons_miss agent st rest h']
        simp only [markFirstPendingStep, if_neg h, ih]

/-- Counterexample to C5 as stated: on a non-empty plan whose steps are
all pending (and no observable progress, so nothing is marked), the
fallback orchestrator sets the phase to executing, not to planning as the
claim's "all steps pending gives planning" requires. -/
theorem orchestrator_phase_counterexample :
    allPendingPlanState.execution_plan ≠ [] ∧
    (∀ st ∈ allPendingPlanState.execution_plan, st.status = "pending") ∧
    (orchestrator_fallback_process allPendingPlanState).orchestrator_status =
      some "executing" ∧
    (orchestrator_fallback_process allPendingPlanState).orchestrator_status ≠
      some "planning" := by
  refine ⟨by decide, by decide, ?_, ?_⟩ <;> decide

/-- Claim C5 (amended): on an empty plan the fallback orchestrator
synthesizes the ordered coder, reviewer, tester plan of pending steps with
phase planning; on a non-empty plan it marks the first pending coder step
completed when the iteration count shows progress and the first pending
reviewer step completed when the review is approved, and then sets the
phase to completed when no step remains pending and to executing otherwise
(the planning phase arises only from empty-plan synthesis). -/
theorem orchestrator_fallback_amended (s : AgentState) :
    (s.execution_plan = [] →
        (orchestrator_fallback_process s).execution_plan = some (defaultPlanFor s) ∧
        (orchestrator_fallback_process s).orchestrator_status = some "planning") ∧
    (s.execution_plan ≠ [] →
        ∃ plan2,
          (orchestrator_fallback_process s).execution_plan = some plan2 ∧
          plan2 =
            (let plan1 :=
              if 0 < s.iteration_count then
                completeFirstPending_spec s.execution_plan "coder"
              else s.execution_plan
             if s.review_status = "approved" then
               completeFirstPending_spec plan1 "reviewer"
             else plan1) ∧
          (orchestrator_fallback_process s).orchestrator_status =
            some (if (plan2.filter (fun st => st.status == "pending")).length = 0 then
                    "completed"
                  else "executing")) := by
  constructor
  · intro h
    have he : s.execution_plan.isEmpty = true := by rw [h]; rfl
    simp [orchestrator_fallback_process, he]
  · intro h
    have he : s.execution_plan.isEmpty = false := by
      cases hp : s.execution_plan with
      | nil => exact absurd hp h
      | cons a l => rfl
    refine
      ⟨(let plan1 :=
          if s.iteration_count > 0 then markFirstPendingStep s.execution_plan "coder"
          else s.execution_plan
        if s.review_status = "approved" then markFirstPendingStep plan1 "reviewer"
        else plan1), ?_, ?_, ?_⟩ <;>
      simp [orchestrator_fallback_process, he, markFirstPendingStep_eq_spec]

/-- Witness for C5's amended theorem at the initializer state (empty
plan): the synthesized default plan and the planning phase. -/
theorem orchestrator_fallback_amended_witness :
    build_initial_state.execution_plan = [] ∧
    (orchestrator_fallback_process build_initial_state).execution_plan =
      some (defaultPlanFor build_initial_state) ∧
    (orchestrator_fallback_process build_initial_state).orchestrator_status =
      some "planning" :=
  ⟨rfl, ((orchestrator_fallback_amended build_initial_state).1 rfl).1,
   ((orchestrator_fallback_amended build_initial_state).1 rfl).2⟩

theorem length_insertByPriorityDesc (x : AgentMessage) (l : List AgentMessage) :
    (insertByPriorityDesc x l).length = l.length + 1 := by
  induction l with
  | nil => rfl
  | cons y ys ih =>
      by_cases h : y.priority.value ≤ x.priority.value <;>
        simp [insertByPriorityDesc, h, ih]

theorem length_sortByPriorityDesc (l : List AgentMessage) :
    (sortByPriorityDesc l).length = l.length := by
  induction l with
  | nil => rfl
  | cons x xs ih => simp [sortByPriorityDesc, length_insertByPriorityDesc, ih]

theorem head_sortByPriorityDesc (l : List AgentMessage) :
    (sortByPriorityDesc l).head? = firstMaxMessage l := by
  induction l with
  | nil => rfl
  | cons x xs ih =>
      simp only [sortByPriorityDesc, firstMaxMessage]
      cases hs : sortByPriorityDesc xs with
      | nil =>
          rw [hs] at ih
          rw [← ih]
          rfl
      | cons y ys =>
          rw [hs] at ih
          rw [← ih]
          by_cases h : y.priority.value ≤ x.priority.value
          · simp [insertByPriorityDesc, h]
          · simp [insertByPriorityDesc, h]

theorem firstMaxMessage_eq_none (l : List AgentMessage)
    (h : firstMaxMessage l = none) : l = [] := by
  cases l with
  | nil => rfl
  | cons a as =>
      rw [firstMaxMessage] at h
      cases hf : firstMaxMessage as with
      | none => rw [hf] at h; exact absurd h (by simp)
      | some n => rw [hf] at h; exact absurd h (by simp)

theorem firstMaxMessage_is_max (l : List AgentMessage) (m : AgentMessage)
    (hm : firstMaxMessage l = some m) :
    ∀ x ∈ l, x.priority.value ≤ m.priority.value := by
  induction l generalizing m with
  | nil => simp [firstMaxMessage] at hm
  | cons a as ih =>
      intro x hx
      rw [firstMaxMessage] at hm
      cases hf : firstMaxMessage as with
      | none =>
          rw [hf] at hm
          have hnil := firstMaxMessage_eq_none as hf
          subst hnil
          have hm' : a = m := by injection hm
          rcases List.mem_cons.mp hx with hxa | hxs
          · rw [hxa, hm']
          · simp at hxs
      | some n =>
          rw [hf] at hm
          have hmn : (if n.priority.value ≤ a.priority.value then a else n) = m := by
            injection hm
          have hbound := ih n hf
          rcases List.mem_cons.mp hx with hxa | hxs
          · subst hxa
            by_cases hc : n.priority.value ≤ x.priority.value
            · rw [if_pos hc] at hmn
              rw [hmn]
            · rw [if_neg hc] at hmn
              rw [← hmn]
              omega
          · have hxn := hbound x hxs
            by_cases hc : n.priority.value ≤ a.priority.value
            · rw [if_pos hc] at hmn
              rw [← hmn]
              omega
            · rw [if_neg hc] at hmn
              rw [← hmn]
              exact hxn

/-- Claim C7: dequeuing an empty queue returns the no-message value
rather than raising; on a non-empty queue, dequeue removes and returns the
highest-priority message with ties broken toward the earliest enqueued
(the first maximal-priority message), while peek reports exactly the
message dequeue would return without removing anything; and a low-priority
message enqueued before a high-priority one is dequeued after it. -/
theorem message_queue_dequeue_spec :
    dequeue ([] : MessageQueue) = none ∧
    (∀ q : MessageQueue, peek q = (dequeue q).map Prod.fst) ∧
    (∀ (q : MessageQueue) (m : AgentMessage) (rest : MessageQueue),
        dequeue q = some (m, rest) →
          firstMaxMessage q = some m ∧
          (∀ x ∈ q, x.priority.value ≤ m.priority.value) ∧
          rest.length + 1 = q.length) ∧
    (dequeue (enqueue (enqueue [] lowMsg) highMsg)).map Prod.fst = some highMsg := by
  refine ⟨rfl, ?_, ?_, by decide⟩
  · intro q
    unfold peek dequeue
    cases hs : sortByPriorityDesc q <;> rfl
  · intro q m rest h
    unfold dequeue at h
    cases hs : sortByPriorityDesc q with
    | nil => rw [hs] at h; exact absurd h (by simp)
    | cons a as =>
        rw [hs] at h
        have ha : a = m := by
          have := congrArg (fun o => Option.map Prod.fst o) h
          simpa using this
        have hrest : as = rest := by
          have := congrArg (fun o => Option.map Prod.snd o) h
          simpa using this
        have hfm : firstMaxMessage q = some m := by
          rw [← head_sortByPriorityDesc, hs, ha]
          rfl
        refine ⟨hfm, firstMaxMessage_is_max q m hfm, ?_⟩
        rw [← hrest]
        have hlen := length_sortByPriorityDesc q
        rw [hs] at hlen
        simpa using hlen

/-- Witness for C7: the boundary scenario with a low then a high priority
message; the dequeued message is the high one and it bounds the queue. -/
theorem message_queue_dequeue_witness :
    dequeue [lowMsg, highMsg] = some (highMsg, [lowMsg]) ∧
    firstMaxMessage [lowMsg, highMsg] = some highMsg ∧
    (∀ x ∈ [lowMsg, highMsg], x.priority.value ≤ highMsg.priority.value) :=
  ⟨by decide,
   (message_queue_dequeue_spec.2.2.1 [lowMsg, highMsg] highMsg [lowMsg] (by decide)).1,
   (message_queue_dequeue_spec.2.2.1 [lowMsg, highMsg] highMsg [lowMsg] (by decide)).2.1⟩

theorem from_dict_to_dict (m : AgentMessage) :
    AgentMessage.from_dict m.to_dict = some m := by
  have ht : MessageType.ofValue m.message_type.value = some m.message_type := by
    cases m.message_type <;> rfl
  have hp : MessagePriority.ofValue m.priority.value = some m.priority := by
    cases m.priority <;> rfl
  simp [AgentMessage.from_dict, AgentMessage.to_dict, ht, hp]

theorem from_list_to_list (q : MessageQueue) : from_list (to_list q) = some q := by
  induction q with
  | nil => rfl
  | cons m ms ih =>
      simp only [to_list] at ih
      simp [to_list, from_list, from_dict_to_dict, ih]

/-- Claim C8: serializing a message queue to its list form and
reconstructing it succeeds and yields a queue of identical length with an
identical peek result — every message, its id included, round-trips
through the dictionary form. -/
theorem message_queue_roundtrip (q : MessageQueue) :
    ∃ q', from_list (to_list q) = some q' ∧
      q'.length = q.length ∧ peek q' = peek q :=
  ⟨q, from_list_to_list q, rfl, rfl⟩

theorem runFrom_executor_ok (invoke : String → Except String Int) (src : String)
    (fuel : Nat) (s : AgentState) (v : Int)
    (happ : s.approval_status = "approved") (hinv : invoke src = Except.ok v) :
    ∃ final, runFrom invoke src (fuel + 1) GraphNode.executor s = some (Except.ok final) ∧
      final.review_status = s.review_status ∧
      final.iteration_count = s.iteration_count := by
  refine ⟨applyUpdate s
    { last_execution := some "Executed app.py:add()"
      skill_result := some v
      messages := [⟨"ai", "Executor: execution completed.", "executor"⟩] }, ?_, rfl, rfl⟩
  simp only [runFrom]
  simp [executor_node, happ, hinv]

theorem runFrom_tester_good (invoke : String → Except String Int) (src : String)
    (fuel : Nat) (s : AgentState) (v : Int)
    (hcode : dictGet s.code_files "app.py" "" = goodAddSource)
    (happ : s.approval_status = "approved") (hinv : invoke src = Except.ok v) :
    ∃ final, runFrom invoke src (fuel + 3) GraphNode.tester s = some (Except.ok final) ∧
      final.review_status = s.review_status ∧
      final.iteration_count = s.iteration_count := by
  have htest : fallback_tester s =
      { test_code := some generatedTestCode
        test_status := some "generated"
        messages := [⟨"ai",
          "Tester: generated tests.\n\n```python\n" ++ generatedTestCode ++ "\n```",
          "tester"⟩] } := by
    simp [fallback_tester, hcode, good_has_defadd]
  have happ1 :
      (applyUpdate (applyUpdate s (fallback_tester s))
        (approver_node (applyUpdate s (fallback_tester s)))).approval_status =
        "approved" := by
    simp [applyUpdate, approver_node, htest, happ]
  obtain ⟨final, hrun, hfrev, hfit⟩ :=
    runFrom_executor_ok invoke src fuel
      (applyUpdate (applyUpdate s (fallback_tester s))
        (approver_node (applyUpdate s (fallback_tester s)))) v happ1 hinv
  have hroute : route_after_tester (applyUpdate s (fallback_tester s)) =
      GraphNode.approver := by
    simp [route_after_tester, applyUpdate, htest]
  refine ⟨final, ?_, ?_, ?_⟩
  · have e1 : runFrom invoke src (fuel + 3) GraphNode.tester s =
        runFrom invoke src (fuel + 2)
          (route_after_tester (applyUpdate s (fallback_tester s)))
          (applyUpdate s (fallback_tester s)) := rfl
    rw [e1, hroute]
    exact hrun
  · rw [hfrev]
    simp [applyUpdate, approver_node, htest]
  · rw [hfit]
    simp [applyUpdate, approver_node, htest]

theorem runFrom_reviewer_good (invoke : String → Except String Int) (src : String)
    (fuel : Nat) (s : AgentState) (v : Int)
    (hcode : dictGet s.code_files "app.py" "" = goodAddSource)
    (happ : s.approval_status = "approved") (hinv : invoke src = Except.ok v) :
    ∃ final, runFrom invoke src (fuel + 4) GraphNode.reviewer s = some (Except.ok final) ∧
      final.review_status = "approved" ∧
      final.iteration_count = s.iteration_count := by
  have hrev : fallback_reviewer s =
      { review_status := some "approved"
        reviewer_feedback := some "Reviewer: approved."
        messages := [⟨"ai", "Reviewer: approved.", "reviewer"⟩] } := by
    simp [fallback_reviewer, hcode, good_contains_sum, good_no_marker]
  have hcode1 : dictGet (applyUpdate s (fallback_reviewer s)).code_files "app.py" ""
      = goodAddSource := by
    simp [applyUpdate, hrev, hcode]
  have happ1 : (applyUpdate s (fallback_reviewer s)).approval_status = "approved" := by
    simp [applyUpdate, hrev, happ]
  obtain ⟨final, hrun, hfrev, hfit⟩ :=
    runFrom_tester_good invoke src fuel (applyUpdate s (fallback_reviewer s)) v
      hcode1 happ1 hinv
  have hroute : route_after_review (applyUpdate s (fallback_reviewer s)) =
      GraphNode.tester := by
    simp [route_after_review, applyUpdate, hrev]
  refine ⟨final, ?_, ?_, ?_⟩
  · have e1 : runFrom invoke src (fuel + 4) GraphNode.reviewer s =
        runFrom invoke src (fuel + 3)
          (route_after_review (applyUpdate s (fallback_reviewer s)))
          (applyUpdate s (fallback_reviewer s)) := rfl
    rw [e1, hroute]
    exact hrun
  · rw [hfrev]
    simp [applyUpdate, hrev]
  · rw [hfit]
    simp [applyUpdate, hrev]

theorem runFrom_coder_pos (invoke : String → Except String Int) (src : String)
    (fuel : Nat) (s : AgentState) (v : Int)
    (hpos : 0 < s.iteration_count)
    (happ : s.approval_status = "approved") (hinv : invoke src = Except.ok v) :
    ∃ final, runFrom invoke src (fuel + 5) GraphNode.coder s = some (Except.ok final) ∧
      final.review_status = "approved" ∧
      final.iteration_count = s.iteration_count + 1 := by
  have hne : s.iteration_count ≠ 0 := by omega
  have hcod : fallback_coder s =
      { code_files := some (dictSet s.code_files "app.py" goodAddSource)
        iteration_count := some (s.iteration_count + 1)
        messages := [⟨"ai", "Coder: fixed math logic.", "coder"⟩] } := by
    simp [fallback_coder, hne]
  have hcode1 : dictGet (applyUpdate s (fallback_coder s)).code_files "app.py" ""
      = goodAddSource := by
    simp [applyUpdate, hcod, dictGet_dictSet_same]
  have happ1 : (applyUpdate s (fallback_coder s)).approval_status = "approved" := by
    simp [applyUpdate, hcod, happ]
  obtain ⟨final, hrun, hfrev, hfit⟩ :=
    runFrom_reviewer_good invoke src fuel (applyUpdate s (fallback_coder s)) v
      hcode1 happ1 hinv
  refine ⟨final, ?_, hfrev, ?_⟩
  · have e1 : runFrom invoke src (fuel + 5) GraphNode.coder s =
        runFrom invoke src (fuel + 4) GraphNode.reviewer
          (applyUpdate s (fallback_coder s)) := rfl
    rw [e1]
    exact hrun
  · rw [hfit]
    simp [applyUpdate, hcod]

/-- Claim C1: from any initial state with a non-negative iteration count
(in particular the initializer's) whose approval outcome is pre-set to
approved, the fixed pipeline under the deterministic fallback roles (and a
working skill environment) terminates, and the final state has the review
approved with an iteration count of at least 2. -/
theorem fixed_pipeline_terminates_approved (invoke : String → Except String Int)
    (src : String) (v : Int) (s : AgentState)
    (h0 : 0 ≤ s.iteration_count)
    (happ : s.approval_status = "approved")
    (hinv : invoke src = Except.ok v) :
    ∃ final, runFrom invoke src 10 GraphNode.coder s = some (Except.ok final) ∧
      final.review_status = "approved" ∧
      2 ≤ final.iteration_count := by
  by_cases h : s.iteration_count = 0
  · have hcod : fallback_coder s =
        { code_files := some (dictSet s.code_files "app.py" badAddSource)
          iteration_count := some (s.iteration_count + 1)
          messages := [⟨"ai", "Coder: initial implementation.", "coder"⟩] } := by
      simp [fallback_coder, h]
    have hcode1 : dictGet (applyUpdate s (fallback_coder s)).code_files "app.py" ""
        = badAddSource := by
      simp [applyUpdate, hcod, dictGet_dictSet_same]
    have hrev : fallback_reviewer (applyUpdate s (fallback_coder s)) =
        { review_status := some "changes"
          reviewer_feedback := some "Reviewer: add() is incorrect; please fix math."
          messages := [⟨"ai", "Reviewer: add() is incorrect; please fix math.",
            "reviewer"⟩] } := by
      simp [fallback_reviewer, hcode1, bad_no_sum]
    have hit2 :
        (applyUpdate (applyUpdate s (fallback_coder s))
          (fallback_reviewer (applyUpdate s (fallback_coder s)))).iteration_count =
          s.iteration_count + 1 := by
      rw [hrev]
      simp [applyUpdate, hcod]
    have hpos2 : 0 <
        (applyUpdate (applyUpdate s (fallback_coder s))
          (fallback_reviewer (applyUpdate s (fallback_coder s)))).iteration_count := by
      rw [hit2]; omega
    have happ2 :
        (applyUpdate (applyUpdate s (fallback_coder s))
          (fallback_reviewer (applyUpdate s (fallback_coder s)))).approval_status =
          "approved" := by
      rw [hrev]
      simp [applyUpdate, hcod, happ]
    obtain ⟨final, hrun, hfrev, hfit⟩ :=
      runFrom_coder_pos invoke src 3
        (applyUpdate (applyUpdate s (fallback_coder s))
          (fallback_reviewer (applyUpdate s (fallback_coder s)))) v hpos2 happ2 hinv
    have hroute : route_after_review
        (applyUpdate (applyUpdate s (fallback_coder s))
          (fallback_reviewer (applyUpdate s (fallback_coder s)))) = GraphNode.coder := by
      rw [hrev]
      simp [route_after_review, applyUpdate]
    refine ⟨final, ?_, hfrev, ?_⟩
    · have e1 : runFrom invoke src 10 GraphNode.coder s =
          runFrom invoke src 8
            (route_after_review
              (applyUpdate (applyUpdate s (fallback_coder s))
                (fallback_reviewer (applyUpdate s (fallback_coder s)))))
            (applyUpdate (applyUpdate s (fallback_coder s))
              (fallback_reviewer (applyUpdate s (fallback_coder s)))) := rfl
      rw [e1, hroute]
      exact hrun
    · rw [hfit, hit2]
      omega
  · have hpos : 0 < s.iteration_count := by omega
    obtain ⟨final, hrun, hfrev, hfit⟩ :=
      runFrom_coder_pos invoke src 5 s v hpos happ hinv
    refine ⟨final, hrun, hfrev, ?_⟩
    rw [hfit]
    omega

/-- Witness for C1 at the initializer state with the approval decision
pre-injected and an intact skill environment. -/
theorem fixed_pipeline_terminates_approved_witness :
    (0 : Int) ≤ initApprovedState.iteration_count ∧
    initApprovedState.approval_status = "approved" ∧
    ∃ final, runFrom addSkillEnv goodAddSource 10 GraphNode.coder initApprovedState =
        some (Except.ok final) ∧
      final.review_status = "approved" ∧
      2 ≤ final.iteration_count :=
  ⟨by decide, rfl,
   fixed_pipeline_terminates_approved addSkillEnv goodAddSource 5 initApprovedState
     (by decide) rfl rfl⟩

end AgentSystem
